import Mathlib

/-!
Verification development for the n8n-runner dynamic-type-resolution and
credential-materialization subsystem.

The TypeScript sources are shallowly embedded: classes become explicit state
records, `Map`/object fields become association lists (`List (String × _)`),
external collaborators (the `require` module system, the credential provider,
the n8n-workflow schema/expression engines) become oracle parameters, and
methods that can recurse unboundedly take a fuel argument whose exhaustion
(`none`) models non-termination.
-/

set_option autoImplicit false

namespace N8nRunner

/-! ### Association-list primitives

JavaScript plain objects and `Map`s keyed by strings are modelled as
association lists in insertion order.  `lookupField` is property read,
`setField` is property assignment (replace in place when the key exists,
append otherwise, matching JS object semantics). -/

def lookupField {V : Type} : List (String × V) → String → Option V
  | [], _ => none
  | (k, v) :: rest, key => if k = key then some v else lookupField rest key

def setField {V : Type} : List (String × V) → String → V → List (String × V)
  | [], key, v => [(key, v)]
  | (k, w) :: rest, key, v =>
    if k = key then (k, v) :: rest else (k, w) :: setField rest key v

theorem lookupField_setField_self {V : Type} (l : List (String × V)) (k : String) (v : V) :
    lookupField (setField l k v) k = some v := by
  induction l with
  | nil => simp [setField, lookupField]
  | cons hd tl ih =>
    obtain ⟨k', w⟩ := hd
    by_cases h : k' = k
    · simp [setField, lookupField, h]
    · simp [setField, lookupField, h, ih]

theorem lookupField_setField_ne {V : Type} (l : List (String × V)) (k k' : String) (v : V)
    (h : k' ≠ k) : lookupField (setField l k v) k' = lookupField l k' := by
  induction l with
  | nil => simp [setField, lookupField, Ne.symm h]
  | cons hd tl ih =>
    obtain ⟨k0, w⟩ := hd
    by_cases h0 : k0 = k
    · subst h0
      simp [setField, lookupField, Ne.symm h]
    · by_cases h1 : k0 = k'
      · simp [setField, lookupField, h0, h1, h]
      · simp [setField, lookupField, h0, h1, ih]

/-! ### String helpers from the source

`capitalizeFirst` embeds `s.charAt(0).toUpperCase() + s.slice(1)`
(src/credential-types.ts line 68 and node-types.ts line 122). -/

def capitalizeFirst (s : String) : String :=
  match s.data with
  | [] => ""
  | c :: cs => String.mk (c.toUpper :: cs)

/-- Split a string at its last `.`: embeds `nodeTypeName.lastIndexOf('.')`
followed by the two `substring` calls (node-types.ts lines 118-120).  When no
dot is present the JS code yields `("", s)`. -/
def splitAtLastDotAux : List Char → Option (List Char × List Char)
  | [] => none
  | c :: cs =>
    match splitAtLastDotAux cs with
    | some (pre, post) => some (c :: pre, post)
    | none => if c = '.' then some ([], cs) else none

def splitAtLastDot (s : String) : String × String :=
  match splitAtLastDotAux s.data with
  | some (pre, post) => (String.mk pre, String.mk post)
  | none => ("", s)

/-! ## Credential Type Registry (src/credential-types.ts)

`knownCredentials : Record<string, { extends?: string[]; supportedNodes?: string[] }>` -/

structure KnownCredential where
  /-- the optional `extends` field of a known-credential entry -/
  extendsArr : Option (List String) := none
  supportedNodes : Option (List String) := none
deriving DecidableEq

/-- Embeds `this.knownCredentials[typeName]?.extends ?? []` (credential-types.ts line 49). -/
def extendsOf (known : List (String × KnownCredential)) (typeName : String) : List String :=
  match lookupField known typeName with
  | some entry => entry.extendsArr.getD []
  | none => []

/-- The body of the `for (const type of extendsArr)` loop in `getParentTypes`
(credential-types.ts lines 55-57): sequentially evaluate the recursive call on
each direct parent and concatenate the results that get pushed into
`extendsArrCopy`.  `none` propagates divergence of any recursive call. -/
def collectParents (rec : String → Option (List String)) : List String → Option (List String)
  | [] => some []
  | p :: ps =>
    match rec p with
    | none => none
    | some lp =>
      match collectParents rec ps with
      | none => none
      | some rest => some (lp ++ rest)

/-- Embeds `CredentialTypes.getParentTypes` (credential-types.ts lines 48-60), with a
fuel bound on call depth.  The source recursion carries no visited set, so a
cyclic `extends` graph makes every recursive path consume unbounded depth;
`none` for every fuel value models that non-termination (a stack overflow at
runtime). -/
def getParentTypesF (known : List (String × KnownCredential)) :
    Nat → String → Option (List String)
  | 0, _ => none
  | fuel + 1, typeName =>
    let extendsArr := extendsOf known typeName
    if extendsArr = [] then some []
    else
      match collectParents (getParentTypesF known fuel) extendsArr with
      | none => none
      | some rest => some (extendsArr ++ rest)

example : getParentTypesF [("childType", ⟨some ["parentType"], none⟩)] 2 "childType" =
    some ["parentType"] := by decide

example :
    getParentTypesF
      [("childType", ⟨some ["parentType"], none⟩),
       ("parentType", ⟨some ["grandparentType"], none⟩)] 3 "childType" =
    some ["parentType", "grandparentType"] := by decide

theorem collectParents_some (rec : String → Option (List String)) (l : List String)
    (h : ∀ p ∈ l, ∃ lp, rec p = some lp) :
    ∃ rest, collectParents rec l = some rest := by
  induction l with
  | nil => exact ⟨[], rfl⟩
  | cons p ps ih =>
    obtain ⟨lp, hlp⟩ := h p (List.mem_cons_self p ps)
    obtain ⟨rest, hrest⟩ := ih fun q hq => h q (List.mem_cons_of_mem p hq)
    exact ⟨lp ++ rest, by simp [collectParents, hlp, hrest]⟩

theorem mem_collectParents (rec : String → Option (List String)) (l : List String)
    (rest : List String) (h : collectParents rec l = some rest) (x : String) :
    x ∈ rest ↔ ∃ p ∈ l, ∃ lp, rec p = some lp ∧ x ∈ lp := by
  induction l generalizing rest with
  | nil =>
    simp only [collectParents, Option.some.injEq] at h
    simp [← h]
  | cons p ps ih =>
    simp only [collectParents] at h
    cases hrec : rec p with
    | none => rw [hrec] at h; exact absurd h (by simp)
    | some lp =>
      rw [hrec] at h
      cases hcp : collectParents rec ps with
      | none => rw [hcp] at h; exact absurd h (by simp)
      | some rest2 =>
        rw [hcp] at h
        simp only [Option.some.injEq] at h
        subst h
        constructor
        · intro hx
          rcases List.mem_append.mp hx with hx | hx
          · exact ⟨p, List.mem_cons_self p ps, lp, hrec, hx⟩
          · obtain ⟨q, hq, lq, hlq, hxq⟩ := (ih rest2 hcp).mp hx
            exact ⟨q, List.mem_cons_of_mem p hq, lq, hlq, hxq⟩
        · rintro ⟨q, hq, lq, hlq, hxq⟩
          rcases List.mem_cons.mp hq with rfl | hq
          · rw [hrec] at hlq
            have heq := Option.some.inj hlq
            subst heq
            exact List.mem_append.mpr (Or.inl hxq)
          · exact List.mem_append.mpr (Or.inr ((ih rest2 hcp).mpr ⟨q, hq, lq, hlq, hxq⟩))

theorem transGen_extendsOf_rank_lt (known : List (String × KnownCredential))
    (rank : String → Nat) (hrank : ∀ t p, p ∈ extendsOf known t → rank p < rank t)
    (a b : String) (h : Relation.TransGen (fun x y => y ∈ extendsOf known x) a b) :
    rank b < rank a := by
  induction h with
  | single h1 => exact hrank _ _ h1
  | tail _ h2 ih => exact lt_trans (hrank _ _ h2) ih

/-- C8: for every acyclic known-type index (acyclicity witnessed by a rank
function strictly decreasing along `extends` edges) and sufficient call depth,
`getParentTypes` terminates and returns exactly the transitive closure of
`extends` ancestors of the queried type, not including the type itself; the
returned list is the immediate `extends` list followed by the concatenated
recursive results for each direct parent in declaration order (this is the
definitional unfolding of `getParentTypesF`). -/
theorem c8_getParentTypes_acyclic_closure (known : List (String × KnownCredential))
    (rank : String → Nat) (hrank : ∀ t p, p ∈ extendsOf known t → rank p < rank t)
    (fuel : Nat) (t : String) (hfuel : rank t < fuel) :
    ∃ l, getParentTypesF known fuel t = some l ∧
      (∀ x, x ∈ l ↔ Relation.TransGen (fun a b => b ∈ extendsOf known a) t x) ∧
      t ∉ l := by
  induction fuel generalizing t with
  | zero => omega
  | succ n ih =>
    by_cases he : extendsOf known t = []
    · refine ⟨[], by simp [getParentTypesF, he], fun x => ?_, by simp⟩
      simp only [List.not_mem_nil, false_iff]
      intro hx
      obtain ⟨b, hb, -⟩ := Relation.TransGen.head'_iff.mp hx
      rw [he] at hb
      exact absurd hb (List.not_mem_nil b)
    · have hlt : ∀ p ∈ extendsOf known t, rank p < n := fun p hp =>
        lt_of_lt_of_le (hrank t p hp) (Nat.lt_succ_iff.mp hfuel)
      have hrec := fun p hp => ih p (hlt p hp)
      obtain ⟨rest, hcp⟩ :=
        collectParents_some (getParentTypesF known n) (extendsOf known t)
          fun p hp => ⟨(hrec p hp).choose, (hrec p hp).choose_spec.1⟩
      refine ⟨extendsOf known t ++ rest, by simp [getParentTypesF, he, hcp], fun x => ?_, ?_⟩
      · have hmem := mem_collectParents (getParentTypesF known n) (extendsOf known t) rest hcp x
        constructor
        · intro hx
          rcases List.mem_append.mp hx with hx | hx
          · exact Relation.TransGen.single hx
          · obtain ⟨p, hp, lp, hlp, hxp⟩ := hmem.mp hx
            obtain ⟨lp0, hlp0, hchar, -⟩ := hrec p hp
            rw [hlp0] at hlp
            cases hlp
            exact Relation.TransGen.head hp ((hchar x).mp hxp)
        · intro hx
          obtain ⟨b, hb, hbx⟩ := Relation.TransGen.head'_iff.mp hx
          rcases Relation.reflTransGen_iff_eq_or_transGen.mp hbx with rfl | htg
          · exact List.mem_append.mpr (Or.inl hb)
          · obtain ⟨lb, hlb, hchar, -⟩ := hrec b hb
            exact List.mem_append.mpr
              (Or.inr (hmem.mpr ⟨b, hb, lb, hlb, (hchar x).mpr htg⟩))
      · intro ht
        rcases List.mem_append.mp ht with ht | ht
        · exact absurd (hrank t t ht) (lt_irrefl _)
        · obtain ⟨p, hp, lp, hlp, htp⟩ := mem_collectParents _ _ rest hcp t |>.mp ht
          obtain ⟨lp0, hlp0, hchar, -⟩ := hrec p hp
          rw [hlp0] at hlp
          cases hlp
          have : Relation.TransGen (fun a b => b ∈ extendsOf known a) t t :=
            Relation.TransGen.head hp ((hchar t).mp htp)
          exact absurd (transGen_extendsOf_rank_lt known rank hrank t t this) (lt_irrefl _)

/-- The known-type index of the spec example: `A` extends `P`, and `P` is
unknown (so has no ancestors). -/
def knownChain : List (String × KnownCredential) := [("A", ⟨some ["P"], none⟩)]

def rankChain (t : String) : Nat := if t = "A" then 1 else 0

/-- Witness for C8 at the spec's example: `A` with `extends: ["P"]` where `P`
has no `extends`. -/
theorem c8_witness :
    ∃ l, getParentTypesF knownChain 2 "A" = some l ∧
      (∀ x, x ∈ l ↔ Relation.TransGen (fun a b => b ∈ extendsOf knownChain a) "A" x) ∧
      "A" ∉ l :=
  c8_getParentTypes_acyclic_closure knownChain rankChain
    (by
      intro t p hp
      by_cases hA : t = "A"
      · subst hA
        have hp' : p ∈ ["P"] := by
          simpa [extendsOf, knownChain, lookupField] using hp
        simp only [List.mem_singleton] at hp'
        subst hp'
        decide
      · exfalso
        have : extendsOf knownChain t = [] := by
          simp [extendsOf, knownChain, lookupField, Ne.symm hA]
        rw [this] at hp
        exact absurd hp (List.not_mem_nil p))
    2 "A" (by decide)

/-- The 2-cycle from the repository's own test
(`credential-types` test, `should handle circular parent references gracefully`):
`typeA extends [typeB]`, `typeB extends [typeA]`. -/
def knownCycle : List (String × KnownCredential) :=
  [("typeA", ⟨some ["typeB"], none⟩), ("typeB", ⟨some ["typeA"], none⟩)]

theorem getParentTypesF_knownCycle_none (n : Nat) :
    getParentTypesF knownCycle n "typeA" = none ∧
      getParentTypesF knownCycle n "typeB" = none := by
  induction n with
  | zero => exact ⟨rfl, rfl⟩
  | succ m ih =>
    constructor
    · have he : extendsOf knownCycle "typeA" = ["typeB"] := by decide
      simp [getParentTypesF, he, collectParents, ih.2]
    · have he : extendsOf knownCycle "typeB" = ["typeA"] := by decide
      simp [getParentTypesF, he, collectParents, ih.1]

/-- C1: the claim fails on the code.  `getParentTypes` in
src/credential-types.ts keeps no visited set, so on the 2-cycle
`typeA extends typeB`, `typeB extends typeA` the recursion started at `typeA`
never terminates for any call depth (a stack overflow at runtime) instead of
failing fast with a `CircularReferenceError` naming `typeA` as the spec and
the repository's own unit test demand. -/
theorem c1_getParentTypes_cycle_diverges (fuel : Nat) :
    getParentTypesF knownCycle fuel "typeA" = none :=
  (getParentTypesF_knownCycle_none fuel).1

/-! ## Module Locator and Node Type Registry (node-types.ts)

`NodeTypes.requireModule` (the single-path `require` with working-directory
fallback) is an external-filesystem boundary and is modelled as an oracle
`req : String → Except String JsModule`.  A loaded JS module is its export
table: exported names mapped to class handles in export order; class handles
are opaque numerals and `new C()` is the oracle `construct`. -/

def JsModule : Type := List (String × Nat)

/-- The loop state of `NodeTypes.tryLoadModule` (node-types.ts lines 92-106):
walk the candidate paths in order; a success short-circuits (`Sum.inl`), and
otherwise the `lastError` accumulator is returned (`Sum.inr`). -/
def tryLoadModuleGo {α : Type} (req : String → Except String α) :
    List String → Option String → α ⊕ Option String
  | [], lastError => Sum.inr lastError
  | p :: ps, _ =>
    match req p with
    | Except.ok m => Sum.inl m
    | Except.error e => tryLoadModuleGo req ps (some e)

/-- The template literal thrown by `tryLoadModule` on total failure; a JS
`lastError?.message` interpolates as `undefined` when `lastError` is null. -/
def moduleNotFoundMessage (paths : List String) (lastError : Option String) : String :=
  "Could not find module. Tried paths: " ++ String.intercalate ", " paths ++
    ". Last error: " ++ lastError.getD "undefined"

/-- Embeds `NodeTypes.tryLoadModule` (node-types.ts lines 92-106). -/
def tryLoadModule {α : Type} (req : String → Except String α) (paths : List String) :
    Except String α :=
  match tryLoadModuleGo req paths none with
  | Sum.inl m => Except.ok m
  | Sum.inr lastError => Except.error (moduleNotFoundMessage paths lastError)

theorem tryLoadModuleGo_all_fail {α : Type} (req : String → Except String α) :
    ∀ (paths : List String) (h : paths ≠ []),
      (∀ p ∈ paths, ∃ e, req p = Except.error e) → ∀ le0 : Option String,
      ∃ le, req (paths.getLast h) = Except.error le ∧
        tryLoadModuleGo req paths le0 = Sum.inr (some le)
  | [], h, _, _ => absurd rfl h
  | p :: ps, _, hf, le0 => by
    obtain ⟨e, he⟩ := hf p (List.mem_cons_self p ps)
    cases ps with
    | nil => exact ⟨e, by simpa [List.getLast] using he, by simp [tryLoadModuleGo, he]⟩
    | cons q qs =>
      obtain ⟨le, hlast, hgo⟩ := tryLoadModuleGo_all_fail req (q :: qs) (by simp)
        (fun r hr => hf r (List.mem_cons_of_mem p hr)) (some e)
      refine ⟨le, ?_, ?_⟩
      · rw [List.getLast_cons]
        exact hlast
      · simp only [tryLoadModuleGo, he] at hgo ⊢
        exact hgo

theorem tryLoadModuleGo_first_ok {α : Type} (req : String → Except String α) :
    ∀ (pre : List String), (∀ q ∈ pre, ∃ e, req q = Except.error e) →
      ∀ (p : String) (post : List String) (m : α), req p = Except.ok m →
      ∀ le0 : Option String, tryLoadModuleGo req (pre ++ p :: post) le0 = Sum.inl m
  | [], _, p, post, m, hp, le0 => by simp [tryLoadModuleGo, hp]
  | q :: qs, hpre, p, post, m, hp, le0 => by
    obtain ⟨e, he⟩ := hpre q (List.mem_cons_self q qs)
    simp only [List.cons_append, tryLoadModuleGo, he]
    exact tryLoadModuleGo_first_ok req qs
      (fun r hr => hpre r (List.mem_cons_of_mem q hr)) p post m hp (some e)

/-- C6: the locator `tryLoadModule` tries the candidate paths strictly in list order
and returns the first module that loads; when every candidate fails, it throws
an error whose message enumerates every attempted path and ends with the last
underlying failure reason. -/
theorem c6_tryLoadModule_order_and_failure {α : Type} (req : String → Except String α)
    (paths : List String) (hne : paths ≠ []) :
    ((∀ p ∈ paths, ∃ e, req p = Except.error e) →
      ∃ le, req (paths.getLast hne) = Except.error le ∧
        tryLoadModule req paths =
          Except.error ("Could not find module. Tried paths: " ++
            String.intercalate ", " paths ++ ". Last error: " ++ le)) ∧
    (∀ (pre : List String) (p : String) (post : List String) (m : α),
      paths = pre ++ p :: post → (∀ q ∈ pre, ∃ e, req q = Except.error e) →
      req p = Except.ok m → tryLoadModule req paths = Except.ok m) := by
  constructor
  · intro hf
    obtain ⟨le, hlast, hgo⟩ := tryLoadModuleGo_all_fail req paths hne hf none
    exact ⟨le, hlast, by simp [tryLoadModule, hgo, moduleNotFoundMessage]⟩
  · rintro pre p post m rfl hpre hp
    simp [tryLoadModule, tryLoadModuleGo_first_ok req pre hpre p post m hp none]

def reqW : String → Except String Unit := fun p =>
  if p = "pa" then Except.error "ea" else Except.error "eb"

/-- Witness for C6: both candidates `pa` and `pb` fail, and the thrown message
lists both paths and carries the last error `eb`. -/
theorem c6_witness :
    ∃ le, reqW (["pa", "pb"].getLast (by decide)) = Except.error le ∧
      tryLoadModule reqW ["pa", "pb"] =
        Except.error ("Could not find module. Tried paths: " ++
          String.intercalate ", " ["pa", "pb"] ++ ". Last error: " ++ le) :=
  (c6_tryLoadModule_order_and_failure reqW ["pa", "pb"] (by decide)).1
    (by
      intro p hp
      rcases List.mem_cons.mp hp with rfl | hp
      · exact ⟨"ea", rfl⟩
      · rcases List.mem_cons.mp hp with rfl | hp
        · exact ⟨"eb", rfl⟩
        · exact absurd hp (List.not_mem_nil p))

/-- The closed list of langchain subdirectory categories
(node-types.ts lines 135-147). -/
def langchainSubdirs : List String :=
  ["llms", "embeddings", "vendors", "chains", "agents", "tools", "vectorstores",
   "memory", "document_loaders", "retrievers", "text_splitters"]

structure NodeTypesState where
  loadedNodes : List (String × Nat)
  customPaths : List String
deriving DecidableEq

/-- The candidate-path construction of `loadNodeType`
(node-types.ts lines 126-160): namespace-scoped templates, then two templates
per caller-registered custom search root. -/
def buildPossiblePaths (customPaths : List String)
    (packageName nodeName className : String) : List String :=
  (if packageName = "n8n-nodes-base" then
    ["n8n-nodes-base/dist/nodes/" ++ className ++ "/" ++ className ++ ".node.js",
     "n8n-nodes-base/dist/nodes/" ++ nodeName ++ "/" ++ className ++ ".node.js"]
  else if packageName = "@n8n/n8n-nodes-langchain" then
    langchainSubdirs.map (fun subdir =>
      "@n8n/n8n-nodes-langchain/dist/nodes/" ++ subdir ++ "/" ++ className ++ "/" ++
        className ++ ".node.js") ++
    ["@n8n/n8n-nodes-langchain/dist/nodes/" ++ className ++ "/" ++ className ++ ".node.js"]
  else []) ++
  customPaths.flatMap (fun customPath =>
    [customPath ++ "/nodes/" ++ className ++ "/" ++ className ++ ".node.js",
     customPath ++ "/nodes/" ++ nodeName ++ "/" ++ className ++ ".node.js"])

def toLowerStr (s : String) : String := String.mk (s.data.map Char.toLower)

/-- The case-insensitive export scan of `loadNodeType` (node-types.ts
lines 173-180). -/
def findKeyCaseInsensitive (mod : List (String × Nat)) (className : String) : Option Nat :=
  match mod with
  | [] => none
  | (k, v) :: rest =>
    if toLowerStr k = toLowerStr className then some v
    else findKeyCaseInsensitive rest className

/-- Export extraction: `mod[className] || mod.default`, then the
case-insensitive scan (node-types.ts lines 171-180). -/
def extractNodeClass (mod : JsModule) (className : String) : Option Nat :=
  match lookupField mod className with
  | some c => some c
  | none =>
    match lookupField mod "default" with
    | some c => some c
    | none => findKeyCaseInsensitive mod className

def nodeLoadErrorMessage (nodeTypeName e : String) : String :=
  "Failed to load node type \"" ++ nodeTypeName ++ "\": " ++ e

/-- Embeds `NodeTypes.loadNodeType` (node-types.ts lines 111-196).  The returned
`Nat` counts invocations of the Module Locator (`tryLoadModule`) during the
call. -/
def loadNodeType (requireM : String → Except String JsModule)
    (construct : Nat → Except String Nat) (s : NodeTypesState) (nodeTypeName : String) :
    Except String Unit × NodeTypesState × Nat :=
  if (lookupField s.loadedNodes nodeTypeName).isSome then (Except.ok (), s, 0)
  else
    let packageName := (splitAtLastDot nodeTypeName).1
    let nodeName := (splitAtLastDot nodeTypeName).2
    let className := capitalizeFirst nodeName
    let possiblePaths := buildPossiblePaths s.customPaths packageName nodeName className
    match tryLoadModule requireM possiblePaths with
    | Except.error e => (Except.error (nodeLoadErrorMessage nodeTypeName e), s, 1)
    | Except.ok nodeModule =>
      match extractNodeClass nodeModule className with
      | none =>
        (Except.error (nodeLoadErrorMessage nodeTypeName
          ("Could not find class " ++ className ++ " in module")), s, 1)
      | some cls =>
        match construct cls with
        | Except.error e => (Except.error (nodeLoadErrorMessage nodeTypeName e), s, 1)
        | Except.ok inst =>
          (Except.ok (), ⟨setField s.loadedNodes nodeTypeName inst, s.customPaths⟩, 1)

theorem loadNodeType_ok_lookup (requireM : String → Except String JsModule)
    (construct : Nat → Except String Nat) (s : NodeTypesState) (nodeTypeName : String)
    (s' : NodeTypesState) (k : Nat)
    (h : loadNodeType requireM construct s nodeTypeName = (Except.ok (), s', k)) :
    (lookupField s'.loadedNodes nodeTypeName).isSome := by
  by_cases hl : (lookupField s.loadedNodes nodeTypeName).isSome
  · rw [loadNodeType, if_pos hl] at h
    have h2 : s = s' := congrArg (fun x => x.2.1) h
    rw [← h2]
    exact hl
  · rw [loadNodeType, if_neg hl] at h
    simp only at h
    split at h
    · simp at h
    · split at h
      · simp at h
      · split at h
        · simp at h
        · simp only [Prod.mk.injEq] at h
          rw [← h.2.1]
          simp [lookupField_setField_self]

/-- C9: the loader `loadNodeType` is idempotent.  After any successful load of an
identifier, a second call for the same identifier returns successfully, leaves
the registry state unchanged, and invokes the Module Locator zero further
times. -/
theorem c9_loadNodeType_idempotent (requireM : String → Except String JsModule)
    (construct : Nat → Except String Nat) (s : NodeTypesState) (nodeTypeName : String)
    (s' : NodeTypesState) (k : Nat)
    (h : loadNodeType requireM construct s nodeTypeName = (Except.ok (), s', k)) :
    loadNodeType requireM construct s' nodeTypeName = (Except.ok (), s', 0) := by
  rw [loadNodeType,
    if_pos (loadNodeType_ok_lookup requireM construct s nodeTypeName s' k h)]

def rmW : String → Except String JsModule := fun p =>
  if p = "n8n-nodes-base/dist/nodes/Foo/Foo.node.js" then Except.ok [("Foo", 0)]
  else Except.error "Cannot find module"

def cW : Nat → Except String Nat := fun _ => Except.ok 7

/-- Witness for C9: a concrete successful load of `n8n-nodes-base.foo`
followed by a second call that is a locator-free no-op. -/
theorem c9_witness :
    loadNodeType rmW cW ⟨[("n8n-nodes-base.foo", 7)], []⟩ "n8n-nodes-base.foo" =
      (Except.ok (), ⟨[("n8n-nodes-base.foo", 7)], []⟩, 0) :=
  c9_loadNodeType_idempotent rmW cW ⟨[], []⟩ "n8n-nodes-base.foo"
    ⟨[("n8n-nodes-base.foo", 7)], []⟩ 1 (by rfl)

/-- C2: the claim fails on the code.  The checked-in `NodeTypes` keeps no
identifier-to-constructor registry at all: its constructor argument is a list
of package classes converted to extra search paths, and `loadNodeType` always
delegates to the Module Locator.  For the identifier `my-nodes.testNode` that
the repository's own integration test registers as an injected constructor,
`loadNodeType` on a fresh registry invokes the locator with an empty candidate
list and fails, for every module-resolution and construction oracle, instead
of instantiating the injected constructor. -/
theorem c2_loadNodeType_no_injected_constructor
    (requireM : String → Except String JsModule) (construct : Nat → Except String Nat) :
    loadNodeType requireM construct ⟨[], []⟩ "my-nodes.testNode" =
      (Except.error ("Failed to load node type \"my-nodes.testNode\": " ++
        "Could not find module. Tried paths: . Last error: undefined"), ⟨[], []⟩, 1) := by
  rfl

/-! ## Credential schemas and the Credential Materializer
(src/credentials-helper.ts, src/credentials-overwrites.ts)

Property values that can appear in an `INodeProperties.default` are reduced to
the shapes the source actually writes (`{}` for the synthetic OAuth field). -/

inductive PValue
  | emptyObject
  | strV (s : String)
deriving DecidableEq

structure NodeProperty where
  displayName : String
  name : String
  propType : String
  required : Option Bool := none
  propDefault : Option PValue := none
deriving DecidableEq

/-- The synthetic OAuth token-storage property appended by
`getCredentialsProperties` (credentials-helper.ts lines 135-141). -/
def oauthTokenDataProperty : NodeProperty :=
  { displayName := "oauthTokenData", name := "oauthTokenData", propType := "json",
    required := some false, propDefault := some PValue.emptyObject }

structure CredentialTypeDescriptor where
  name : String
  properties : List NodeProperty
  extendsArr : Option (List String) := none
deriving DecidableEq

/-- The `for (const credentialsTypeName of credentialTypeData.extends)` loop of
`getCredentialsProperties` (credentials-helper.ts lines 148-152): recursively
resolve each parent schema and fold it into `combineProperties` with
`NodeHelpers.mergeNodeProperties` (an external engine, the `merge` oracle). -/
def combineInherited (rec : String → Option (Except String (List NodeProperty)))
    (merge : List NodeProperty → List NodeProperty → List NodeProperty) :
    List String → List NodeProperty → Option (Except String (List NodeProperty))
  | [], acc => some (Except.ok acc)
  | n :: ns, acc =>
    match rec n with
    | none => none
    | some (Except.error e) => some (Except.error e)
    | some (Except.ok ps) => combineInherited rec merge ns (merge acc ps)

/-- Embeds `CredentialsHelper.getCredentialsProperties` (credentials-helper.ts
lines 114-161) with fuel for the recursion over `extends`.  `types` is the
fully-resolved view of the credential registry's `getByName` (which is
deterministic for a fixed module-resolution oracle): `none` models the
`Unknown credential type` throw. -/
def getCredentialsPropertiesF (types : String → Option CredentialTypeDescriptor)
    (merge : List NodeProperty → List NodeProperty → List NodeProperty) :
    Nat → String → Option (Except String (List NodeProperty))
  | 0, _ => none
  | fuel + 1, ctype =>
    match types ctype with
    | none => some (Except.error ("Unknown credential type: " ++ ctype))
    | some credentialTypeData =>
      match credentialTypeData.extendsArr with
      | none =>
        if ctype = "oAuth1Api" ∨ ctype = "oAuth2Api" then
          some (Except.ok (credentialTypeData.properties ++ [oauthTokenDataProperty]))
        else some (Except.ok credentialTypeData.properties)
      | some extendsList =>
        match combineInherited (getCredentialsPropertiesF types merge fuel) merge
            extendsList [] with
        | none => none
        | some (Except.error e) => some (Except.error e)
        | some (Except.ok combineProperties) =>
          some (Except.ok (merge combineProperties credentialTypeData.properties))

/-- C7: for a non-extending credential type named `oAuth1Api` or
`oAuth2Api`, `getCredentialsProperties` returns the declared property list
with the synthetic JSON-typed `oauthTokenData` property appended last; for
every other non-extending type it returns exactly the declared property
list. -/
theorem c7_getCredentialsProperties_oauth_append
    (types : String → Option CredentialTypeDescriptor)
    (merge : List NodeProperty → List NodeProperty → List NodeProperty)
    (fuel : Nat) (ctype : String) (ct : CredentialTypeDescriptor)
    (hct : types ctype = some ct) (hext : ct.extendsArr = none) :
    ((ctype = "oAuth1Api" ∨ ctype = "oAuth2Api") →
      getCredentialsPropertiesF types merge (fuel + 1) ctype =
        some (Except.ok (ct.properties ++ [oauthTokenDataProperty]))) ∧
    ((ctype ≠ "oAuth1Api" ∧ ctype ≠ "oAuth2Api") →
      getCredentialsPropertiesF types merge (fuel + 1) ctype =
        some (Except.ok ct.properties)) := by
  constructor
  · intro h
    simp [getCredentialsPropertiesF, hct, hext, h]
  · intro h
    have : ¬(ctype = "oAuth1Api" ∨ ctype = "oAuth2Api") := by
      rintro (h1 | h2)
      · exact h.1 h1
      · exact h.2 h2
    simp [getCredentialsPropertiesF, hct, hext, this]

def xProperty : NodeProperty := { displayName := "X", name := "x", propType := "string" }

def typesOAuth : String → Option CredentialTypeDescriptor := fun t =>
  if t = "oAuth2Api" then some ⟨"oAuth2Api", [xProperty], none⟩ else none

/-- Witness for C7 at the spec's example: `oAuth2Api` declaring `[x]` with no
`extends`. -/
theorem c7_witness :
    getCredentialsPropertiesF typesOAuth (fun a b => a ++ b) 1 "oAuth2Api" =
      some (Except.ok ([xProperty] ++ [oauthTokenDataProperty])) :=
  (c7_getCredentialsProperties_oauth_append typesOAuth (fun a b => a ++ b) 0 "oAuth2Api"
    ⟨"oAuth2Api", [xProperty], none⟩ rfl rfl).1 (Or.inr rfl)

/-- Embeds `CredentialsOverwrites.applyOverwrite` (credentials-overwrites.ts
lines 13-18): the identity pass of this deployment, returning the same data
reference. -/
def applyOverwrite {V : Type} (_ctype : String) (decryptedData : List (String × V)) :
    List (String × V) :=
  decryptedData

structure NodeCredentialsDetails where
  id : Option String
  name : String

structure ProviderRecord where
  id : String
  name : String
  credType : String
  data : String

/-- The external collaborators invoked by the materializer, for stating which
of them a given call path reaches. -/
inductive CollaboratorCall
  | providerGet
  | schemaLookup
  | overwrite
  | fillDefaults
  | resolveExpressions
deriving DecidableEq

/-- Embeds `CredentialsHelper.getCredentials` (credentials-helper.ts lines 91-109):
the JS guard `!nodeCredential.id` is true for an absent id and for `""`.
The second component records the collaborator calls made. -/
def getCredentials (provider : String → String → ProviderRecord)
    (nodeCredential : NodeCredentialsDetails) (ctype : String) :
    Except String ProviderRecord × List CollaboratorCall :=
  match nodeCredential.id with
  | none => (Except.error "Found credential with no ID.", [])
  | some i =>
    if i = "" then (Except.error "Found credential with no ID.", [])
    else (Except.ok (provider i ctype), [CollaboratorCall.providerGet])

/-- Embeds `CredentialsHelper.applyDefaultsAndOverwrites` (credentials-helper.ts
lines 216-282).  `gnp` is the external `NodeHelpers.getNodeParameters`
defaulting engine (its errors are rethrown unmodified), `expr` is the external
`workflow.expression.getComplexParameterValue` evaluator hosted by the
throwaway single-node workflow. -/
def applyDefaultsAndOverwrites {V : Type} (types : String → Option CredentialTypeDescriptor)
    (merge : List NodeProperty → List NodeProperty → List NodeProperty)
    (gnp : List NodeProperty → List (String × V) → Except String (List (String × V)))
    (expr : List (String × V) → List (String × V)) (fuel : Nat)
    (decryptedDataOriginal : List (String × V)) (ctype : String) :
    Option (Except String (List (String × V)) × List CollaboratorCall) :=
  match getCredentialsPropertiesF types merge fuel ctype with
  | none => none
  | some (Except.error e) => some (Except.error e, [CollaboratorCall.schemaLookup])
  | some (Except.ok credentialsProperties) =>
    let dataWithOverwrites := applyOverwrite ctype decryptedDataOriginal
    match gnp credentialsProperties dataWithOverwrites with
    | Except.error e =>
      some (Except.error e,
        [CollaboratorCall.schemaLookup, CollaboratorCall.overwrite,
         CollaboratorCall.fillDefaults])
    | Except.ok decryptedData =>
      let decryptedData2 :=
        match lookupField decryptedDataOriginal "oauthTokenData" with
        | some v => setField decryptedData "oauthTokenData" v
        | none => decryptedData
      some (Except.ok (expr decryptedData2),
        [CollaboratorCall.schemaLookup, CollaboratorCall.overwrite,
         CollaboratorCall.fillDefaults, CollaboratorCall.resolveExpressions])

/-- Embeds `CredentialsHelper.getDecrypted` (credentials-helper.ts lines 166-183).
`decrypt` is the external `Credentials.getData` decryption capability; the JS
check is `raw === true`, hence `raw = some true`. -/
def getDecrypted {V : Type} (provider : String → String → ProviderRecord)
    (decrypt : String → List (String × V))
    (types : String → Option CredentialTypeDescriptor)
    (merge : List NodeProperty → List NodeProperty → List NodeProperty)
    (gnp : List NodeProperty → List (String × V) → Except String (List (String × V)))
    (expr : List (String × V) → List (String × V)) (fuel : Nat)
    (nodeCredentials : NodeCredentialsDetails) (ctype : String) (raw : Option Bool) :
    Option (Except String (List (String × V)) × List CollaboratorCall) :=
  match getCredentials provider nodeCredentials ctype with
  | (Except.error e, calls) => some (Except.error e, calls)
  | (Except.ok credRec, calls) =>
    let decryptedDataOriginal := decrypt credRec.data
    if raw = some true then some (Except.ok decryptedDataOriginal, calls)
    else
      match applyDefaultsAndOverwrites types merge gnp expr fuel
          decryptedDataOriginal ctype with
      | none => none
      | some (r, calls2) => some (r, calls ++ calls2)

/-- C3: with a non-empty credential id and `raw = true`, `getDecrypted`
returns the provider's decrypted data verbatim, and the only collaborator
reached is the provider: no overwrite application, no schema lookup or
default-filling, and no expression resolution occur on this path. -/
theorem c3_getDecrypted_raw_verbatim {V : Type} (provider : String → String → ProviderRecord)
    (decrypt : String → List (String × V))
    (types : String → Option CredentialTypeDescriptor)
    (merge : List NodeProperty → List NodeProperty → List NodeProperty)
    (gnp : List NodeProperty → List (String × V) → Except String (List (String × V)))
    (expr : List (String × V) → List (String × V)) (fuel : Nat)
    (nodeCredentials : NodeCredentialsDetails) (ctype : String) (i : String)
    (hid : nodeCredentials.id = some i) (hne : i ≠ "") :
    getDecrypted provider decrypt types merge gnp expr fuel nodeCredentials ctype
        (some true) =
      some (Except.ok (decrypt (provider i ctype).data), [CollaboratorCall.providerGet]) := by
  simp [getDecrypted, getCredentials, hid, hne]

def providerW : String → String → ProviderRecord := fun i t => ⟨i, "test", t, "enc"⟩

def decryptW : String → List (String × String) := fun _ =>
  [("clientId", "id"), ("oauthTokenData", "tok")]

/-- Witness for C3: a concrete raw materialization returning the decrypted
record untouched with only the provider invoked. -/
theorem c3_witness :
    getDecrypted providerW decryptW typesOAuth (fun a b => a ++ b)
        (fun _ d => Except.ok d) id 1 ⟨some "123", "test"⟩ "oAuth2Api" (some true) =
      some (Except.ok (decryptW (providerW "123" "oAuth2Api").data),
        [CollaboratorCall.providerGet]) :=
  c3_getDecrypted_raw_verbatim providerW decryptW typesOAuth (fun a b => a ++ b)
    (fun _ d => Except.ok d) id 1 ⟨some "123", "test"⟩ "oAuth2Api" "123" rfl (by decide)

/-- C5: a credential reference whose id is absent or empty makes
`getCredentials` (and hence `getDecrypted`, for every `raw` value) fail with
the missing-id error, and the provider is never invoked: the collaborator
trace is empty. -/
theorem c5_missing_id_fails_fast {V : Type} (provider : String → String → ProviderRecord)
    (decrypt : String → List (String × V))
    (types : String → Option CredentialTypeDescriptor)
    (merge : List NodeProperty → List NodeProperty → List NodeProperty)
    (gnp : List NodeProperty → List (String × V) → Except String (List (String × V)))
    (expr : List (String × V) → List (String × V)) (fuel : Nat)
    (nodeCredentials : NodeCredentialsDetails) (ctype : String)
    (hid : nodeCredentials.id = none ∨ nodeCredentials.id = some "") (raw : Option Bool) :
    getCredentials provider nodeCredentials ctype =
        (Except.error "Found credential with no ID.", []) ∧
      getDecrypted provider decrypt types merge gnp expr fuel nodeCredentials ctype raw =
        some (Except.error "Found credential with no ID.", []) := by
  rcases hid with hid | hid
  · constructor
    · simp [getCredentials, hid]
    · simp [getDecrypted, getCredentials, hid]
  · constructor
    · simp [getCredentials, hid]
    · simp [getDecrypted, getCredentials, hid]

/-- Witness for C5: a reference with an empty id. -/
theorem c5_witness :
    getCredentials providerW ⟨some "", "test"⟩ "oAuth2Api" =
        (Except.error "Found credential with no ID.", []) ∧
      getDecrypted providerW decryptW typesOAuth (fun a b => a ++ b)
          (fun _ d => Except.ok d) id 1 ⟨some "", "test"⟩ "oAuth2Api" none =
        some (Except.error "Found credential with no ID.", []) :=
  c5_missing_id_fails_fast providerW decryptW typesOAuth (fun a b => a ++ b)
    (fun _ d => Except.ok d) id 1 ⟨some "", "test"⟩ "oAuth2Api" (Or.inr rfl) none

/-- C4: in a successful non-raw materialization whose decrypted data
carries `oauthTokenData`, the final result still carries `oauthTokenData` with
its original value, for every behaviour of the external defaulting engine
(`gnp`), including one that drops the field entirely.  The external expression
evaluator is assumed to preserve the `oauthTokenData` field (the expression
language is an out-of-scope capability of the external engine). -/
theorem c4_oauthTokenData_preserved {V : Type} (provider : String → String → ProviderRecord)
    (decrypt : String → List (String × V))
    (types : String → Option CredentialTypeDescriptor)
    (merge : List NodeProperty → List NodeProperty → List NodeProperty)
    (gnp : List NodeProperty → List (String × V) → Except String (List (String × V)))
    (expr : List (String × V) → List (String × V)) (fuel : Nat)
    (nodeCredentials : NodeCredentialsDetails) (ctype : String) (i : String) (v : V)
    (props : List NodeProperty) (dd : List (String × V)) (raw : Option Bool)
    (hid : nodeCredentials.id = some i) (hne : i ≠ "") (hraw : raw ≠ some true)
    (horig : lookupField (decrypt (provider i ctype).data) "oauthTokenData" = some v)
    (hprops : getCredentialsPropertiesF types merge fuel ctype = some (Except.ok props))
    (hgnp : gnp props (decrypt (provider i ctype).data) = Except.ok dd)
    (hexpr : ∀ d, lookupField (expr d) "oauthTokenData" = lookupField d "oauthTokenData") :
    ∃ finalData,
      getDecrypted provider decrypt types merge gnp expr fuel nodeCredentials ctype raw =
        some (Except.ok finalData,
          [CollaboratorCall.providerGet, CollaboratorCall.schemaLookup,
           CollaboratorCall.overwrite, CollaboratorCall.fillDefaults,
           CollaboratorCall.resolveExpressions]) ∧
      lookupField finalData "oauthTokenData" = some v := by
  refine ⟨expr (setField dd "oauthTokenData" v), ?_, ?_⟩
  · simp [getDecrypted, getCredentials, hid, hne, hraw, applyDefaultsAndOverwrites,
      hprops, applyOverwrite, hgnp, horig]
  · rw [hexpr, lookupField_setField_self]

/-- Witness for C4: the defaulting oracle drops every field, yet the final
data still carries the original `oauthTokenData` value. -/
theorem c4_witness :
    ∃ finalData,
      getDecrypted providerW decryptW (fun t => if t = "t" then some ⟨"t", [], none⟩ else none)
          (fun a b => a ++ b) (fun _ _ => Except.ok []) id 1
          ⟨some "123", "test"⟩ "t" none =
        some (Except.ok finalData,
          [CollaboratorCall.providerGet, CollaboratorCall.schemaLookup,
           CollaboratorCall.overwrite, CollaboratorCall.fillDefaults,
           CollaboratorCall.resolveExpressions]) ∧
      lookupField finalData "oauthTokenData" = some "tok" :=
  c4_oauthTokenData_preserved providerW decryptW
    (fun t => if t = "t" then some ⟨"t", [], none⟩ else none) (fun a b => a ++ b)
    (fun _ _ => Except.ok []) id 1 ⟨some "123", "test"⟩ "t" "123" "tok" [] [] none
    rfl (by decide) (by decide) rfl rfl rfl (fun _ => rfl)

/-! ## Credential Type Registry state and caching
(src/credential-types.ts lines 24-105) -/

structure CredentialTypesState where
  loadedCredentials : List (String × CredentialTypeDescriptor)
  knownCredentials : List (String × KnownCredential)
deriving DecidableEq

def credentialBasePath (pascal : String) : String :=
  "n8n-nodes-base/dist/credentials/" ++ pascal ++ ".credentials.js"

def credentialLangchainPath (pascal : String) : String :=
  "@n8n/n8n-nodes-langchain/dist/credentials/" ++ pascal ++ ".credentials.js"

/-- One `try` block of `loadCredentialType` (credential-types.ts lines 70-86
and 88-104): require the module, pick the export named by the PascalCase type,
instantiate it; any failure (require throw, missing export, constructor throw)
leaves the block without a registration. -/
def tryLoadCredentialFrom (requireCred : String → Except String JsModule)
    (constructCred : Nat → Except String CredentialTypeDescriptor) (path pascal : String) :
    Option CredentialTypeDescriptor :=
  match requireCred path with
  | Except.error _ => none
  | Except.ok credentialModule =>
    match lookupField credentialModule pascal with
    | none => none
    | some cls =>
      match constructCred cls with
      | Except.error _ => none
      | Except.ok d => some d

/-- Embeds `CredentialTypes.loadCredentialType` (credential-types.ts lines 65-105):
try the n8n-nodes-base path first, then the langchain path; on total failure
only a log entry is produced and the state is unchanged. -/
def loadCredentialType (requireCred : String → Except String JsModule)
    (constructCred : Nat → Except String CredentialTypeDescriptor)
    (s : CredentialTypesState) (credentialType : String) : CredentialTypesState :=
  let pascalCaseType := capitalizeFirst credentialType
  match tryLoadCredentialFrom requireCred constructCred
      (credentialBasePath pascalCaseType) pascalCaseType with
  | some d => { s with loadedCredentials := setField s.loadedCredentials credentialType d }
  | none =>
    match tryLoadCredentialFrom requireCred constructCred
        (credentialLangchainPath pascalCaseType) pascalCaseType with
    | some d => { s with loadedCredentials := setField s.loadedCredentials credentialType d }
    | none => s

/-- Embeds `CredentialTypes.getByName` (credential-types.ts lines 24-42).  The `Nat`
counts invocations of the dynamic loader `loadCredentialType`. -/
def getByName (requireCred : String → Except String JsModule)
    (constructCred : Nat → Except String CredentialTypeDescriptor)
    (s : CredentialTypesState) (credentialType : String) :
    Except String CredentialTypeDescriptor × CredentialTypesState × Nat :=
  let step : CredentialTypesState × Nat :=
    if (lookupField s.loadedCredentials credentialType).isSome then (s, 0)
    else (loadCredentialType requireCred constructCred s credentialType, 1)
  match lookupField step.1.loadedCredentials credentialType with
  | none => (Except.error ("Unknown credential type: " ++ credentialType), step.1, step.2)
  | some entry => (Except.ok entry, step.1, step.2)

theorem loadCredentialType_preserves (requireCred : String → Except String JsModule)
    (constructCred : Nat → Except String CredentialTypeDescriptor)
    (s : CredentialTypesState) (credentialType k : String) (v : CredentialTypeDescriptor)
    (hk : lookupField s.loadedCredentials k = some v)
    (hnot : lookupField s.loadedCredentials credentialType = none) :
    lookupField (loadCredentialType requireCred constructCred s credentialType).loadedCredentials
      k = some v := by
  have hne : k ≠ credentialType := by
    intro h
    rw [h, hnot] at hk
    cases hk
  unfold loadCredentialType
  cases h1 : tryLoadCredentialFrom requireCred constructCred
      (credentialBasePath (capitalizeFirst credentialType)) (capitalizeFirst credentialType) with
  | some d =>
    simp only [h1]
    rw [lookupField_setField_ne _ _ _ _ hne]
    exact hk
  | none =>
    cases h2 : tryLoadCredentialFrom requireCred constructCred
        (credentialLangchainPath (capitalizeFirst credentialType))
        (capitalizeFirst credentialType) with
    | some d =>
      simp only [h1, h2]
      rw [lookupField_setField_ne _ _ _ _ hne]
      exact hk
    | none =>
      simp only [h1, h2]
      exact hk

/-- C10: once a credential type is materialized, every later `getByName`
for that name returns the stored descriptor instance itself without invoking
the dynamic loader; and `getByName` — the only operation that writes
`loadedCredentials` (`recognizes`, `getSupportedNodes` and `getParentTypes`
never touch it) — preserves every existing entry with its exact value, so the
map only ever gains entries. -/
theorem c10_getByName_cached_monotone (requireCred : String → Except String JsModule)
    (constructCred : Nat → Except String CredentialTypeDescriptor)
    (s : CredentialTypesState) (credentialType : String) :
    (∀ d, lookupField s.loadedCredentials credentialType = some d →
      getByName requireCred constructCred s credentialType = (Except.ok d, s, 0)) ∧
    (∀ k v, lookupField s.loadedCredentials k = some v →
      lookupField
        ((getByName requireCred constructCred s credentialType).2.1).loadedCredentials k =
          some v) := by
  constructor
  · intro d hd
    simp [getByName, hd]
  · intro k v hk
    by_cases hl : (lookupField s.loadedCredentials credentialType).isSome
    · obtain ⟨d, hd⟩ := Option.isSome_iff_exists.mp hl
      unfold getByName
      rw [if_pos hl]
      simp only [hd]
      exact hk
    · have hnot : lookupField s.loadedCredentials credentialType = none :=
        Option.not_isSome_iff_eq_none.mp hl
      have hpres := loadCredentialType_preserves requireCred constructCred s
        credentialType k v hk hnot
      unfold getByName
      rw [if_neg hl]
      cases hres : lookupField
          (loadCredentialType requireCred constructCred s credentialType).loadedCredentials
          credentialType with
      | none => simp only [hres]; exact hpres
      | some entry => simp only [hres]; exact hpres

def credReqW : String → Except String JsModule := fun _ => Except.error "Cannot find module"

def credConW : Nat → Except String CredentialTypeDescriptor := fun _ => Except.error "boom"

/-- Witness for C10: a registry that already holds `x` serves it from the
cache with zero loader invocations and an unchanged state. -/
theorem c10_witness :
    getByName credReqW credConW ⟨[("x", ⟨"x", [], none⟩)], []⟩ "x" =
      (Except.ok ⟨"x", [], none⟩, ⟨[("x", ⟨"x", [], none⟩)], []⟩, 0) :=
  (c10_getByName_cached_monotone credReqW credConW
    ⟨[("x", ⟨"x", [], none⟩)], []⟩ "x").1 ⟨"x", [], none⟩ rfl

end N8nRunner
